import Mathlib

/-!
Verification of the rgb-button-box game core (src/main.py).

The Python source is shallowly embedded:
* floating point arithmetic is idealised as real arithmetic (so
  math.sin becomes Real.sin, ** on floats becomes Real.rpow);
* the Python built-in int(), which truncates toward zero, is pyInt;
* a color is the triple of channel intensities handed to set_rgb;
* coroutine bodies become pure functions from state to an event
  trace plus a new state, and the shared mutable globals (PALETTE,
  states, sync_event) become a state record with a step relation;
* Python list indexing, which raises on an out-of-range index, is
  embedded through Option (List.get?); random.random() outputs are
  abstracted as a stream of reals, one per call.
-/

/-- One RGB color value: the triple of channel intensities passed to
set_rgb (before gamma correction), as produced by rainbow. -/
abbrev Color : Type := ℤ × ℤ × ℤ

/-- Python int() applied to a real: truncation toward zero. -/
noncomputable def pyInt (x : ℝ) : ℤ :=
  if 0 ≤ x then ⌊x⌋ else ⌈x⌉

/-- The per-channel computation inside rainbow (src/main.py lines 96-98):
int((math.sin(phi) * .5 + .5) * 65535) at a given total phase. -/
noncomputable def channel (phi : ℝ) : ℤ :=
  pyInt ((Real.sin phi * 0.5 + 0.5) * 65535)

/-- Modelled from the spec words for the Color Oscillator contract:
given a phase angle and a channel offset, the intensity
sin(theta + offset) * 0.5 + 0.5 scaled to the channel range 0-65535
and rounded toward zero.  Used to compare against the source-derived
channel function. -/
noncomputable def channelSpec (theta offset : ℝ) : ℤ :=
  pyInt ((Real.sin (theta + offset) * 0.5 + 0.5) * 65535)

/-- all_equal from src/main.py line 49-50: lst[1:] == lst[:-1]. -/
def all_equal (l : List ℕ) : Bool :=
  l.drop 1 == l.dropLast

/-- The configured display gamma, src/main.py line 13. -/
noncomputable def GAMMA : ℝ := 2.2

/-- gamma_encode from src/main.py lines 37-41, parameterised by the
configured exponent: the extremes 0 and 65535 are kept exact, any
other duty value is mapped through (u/65535)**gamma * 65535 + 0.5 and
truncated by int(). -/
noncomputable def gammaEncode (g : ℝ) (u : ℕ) : ℤ :=
  if u = 0 ∨ u = 65535 then (u : ℤ)
  else pyInt (((u : ℝ) / 65535) ^ g * 65535 + 0.5)

/-- gamma_encode at the configured exponent GAMMA = 2.2. -/
noncomputable def gamma_encode (u : ℕ) : ℤ :=
  gammaEncode GAMMA u

/-- The index update a confirmed press performs in watch_button
(src/main.py line 168): states[idx] = (states[idx] + 1) % len(PALETTE),
with the palette length read at evaluation time. -/
def watchButtonAdvance (pal : List Color) (i : ℕ) : ℕ :=
  (i + 1) % pal.length

/-- start_phi inside rainbow (src/main.py lines 88 and 107): the k-th
cycle runs with phase rand 0 * 2pi plus the sum of the per-cycle
increments rand 1 * 2pi .. rand k * 2pi, where rand j is the j-th
output of random.random(). -/
noncomputable def startPhi (rand : ℕ → ℝ) : ℕ → ℝ
  | 0 => rand 0 * (2 * Real.pi)
  | k + 1 => startPhi rand k + rand (k + 1) * (2 * Real.pi)

/-- The color rainbow computes for LED idx at frame i of a cycle with
base phase phi0 (src/main.py lines 93-98): theta = i/steps * 2pi,
phi = phi0 + idx*2pi/3 + theta, and the three channels at offsets
0, 2pi/3, 4pi/3. -/
noncomputable def frameColor (phi0 : ℝ) (steps i idx : ℕ) : Color :=
  (channel (phi0 + idx * (2 * Real.pi / 3) + (i : ℝ) / steps * (2 * Real.pi)),
   channel (phi0 + idx * (2 * Real.pi / 3) + (i : ℝ) / steps * (2 * Real.pi)
      + 2 * Real.pi / 3),
   channel (phi0 + idx * (2 * Real.pi / 3) + (i : ℝ) / steps * (2 * Real.pi)
      + 4 * Real.pi / 3))

/-- The value of last_rgb after the inner frame loop of one rainbow
cycle (src/main.py lines 91-101): it starts as three off colors and is
overwritten with the frame colors exactly when the frame counter
reaches steps. -/
noncomputable def innerLast (phi0 : ℝ) (steps : ℕ) : List Color :=
  (List.range (steps + 1)).foldl
    (fun last i =>
      if i = steps then
        [frameColor phi0 steps i 0, frameColor phi0 steps i 1,
         frameColor phi0 steps i 2]
      else last)
    [(0, 0, 0), (0, 0, 0), (0, 0, 0)]

/-- The value of last_rgb when the outer cycle loop of rainbow exits
(src/main.py lines 90-107): each cycle recomputes last_rgb from its
own base phase, so the result is the last cycle's value. -/
noncomputable def rainbowColors (rand : ℕ → ℝ) (steps loops : ℕ) : List Color :=
  (List.range loops).foldl
    (fun _ k => innerLast (startPhi rand k) steps) [(0, 0, 0), (0, 0, 0), (0, 0, 0)]

/-- The palette rainbow publishes and returns (src/main.py lines
109-110): last_rgb plus an appended off color.  none models the two
parameter choices on which the Python function raises before reaching
the assignment: steps = 0 (ZeroDivisionError computing theta) and
loops = 0 (last_rgb never bound). -/
noncomputable def rainbowPalette (durationMs steps loops : ℕ) (rand : ℕ → ℝ) :
    Option (List Color) :=
  if steps = 0 ∨ loops = 0 then none
  else some (rainbowColors rand steps loops ++ [((0 : ℤ), 0, 0)])

/-- Observable actions of the coroutines, at the granularity of the
calls they make: set_rgb writes, sleeps, task spawns, the sync-event
wait/clear pair, and the wholesale reseed of the index array. -/
inductive Ev : Type where
  | waitSync : Ev
  | clearSync : Ev
  | spawnWinSound : Ev
  | setRgb : ℕ → Color → Ev
  | sleepMs : ℕ → Ev
  | reseedStates : Ev

/-- The event trace of flash(times, on_ms, off_ms) (src/main.py lines
151-160) once the matched color has been read: each round shows the
color on all three LEDs, sleeps, switches all three off, sleeps. -/
def flashTrace (c : Color) (times onMs offMs : ℕ) : List Ev :=
  List.flatMap (List.range times)
    (fun _ =>
      [Ev.setRgb 0 c, Ev.setRgb 1 c, Ev.setRgb 2 c, Ev.sleepMs onMs,
       Ev.setRgb 0 (0, 0, 0), Ev.setRgb 1 (0, 0, 0), Ev.setRgb 2 (0, 0, 0),
       Ev.sleepMs offMs])

/-- The hardware events of one rainbow cycle with base phase phi0
(src/main.py lines 92-104): for each frame, one set_rgb per LED, then
a sleep of max 1 (duration_ms // steps) milliseconds. -/
noncomputable def rainbowLoopTrace (phi0 : ℝ) (durationMs steps : ℕ) : List Ev :=
  List.flatMap (List.range (steps + 1))
    (fun i =>
      [Ev.setRgb 0 (frameColor phi0 steps i 0),
       Ev.setRgb 1 (frameColor phi0 steps i 1),
       Ev.setRgb 2 (frameColor phi0 steps i 2),
       Ev.sleepMs (max 1 (durationMs / steps))])

/-- The hardware events of a full rainbow call: the cycles in order,
the k-th at base phase startPhi rand k. -/
noncomputable def rainbowTrace (rand : ℕ → ℝ) (durationMs steps loops : ℕ) :
    List Ev :=
  List.flatMap (List.range loops)
    (fun k => rainbowLoopTrace (startPhi rand k) durationMs steps)

/-- One iteration of the sync_manager loop body (src/main.py lines
187-199), entered when the awaited sync event fires, as a function of
the palette and index array it observes and of the random stream its
rainbow call consumes.  It yields the event trace of the iteration
together with the new palette and new index array; none models the
IndexError Python would raise were PALETTE[states[0]] (inside flash) or
the reseed reads PALETTE[states[idx]] out of range. -/
noncomputable def syncManagerIter (rand : ℕ → ℝ) (pal : List Color)
    (sts : List ℕ) : Option (List Ev × List Color × List ℕ) :=
  (sts.get? 0).bind fun s0 =>
  (pal.get? s0).bind fun cur =>
  ((rainbowColors rand 24 3 ++ [((0 : ℤ), 0, 0)]).get? 0).bind fun c0 =>
  ((rainbowColors rand 24 3 ++ [((0 : ℤ), 0, 0)]).get? 1).bind fun c1 =>
  ((rainbowColors rand 24 3 ++ [((0 : ℤ), 0, 0)]).get? 2).bind fun c2 =>
  some ([Ev.waitSync, Ev.clearSync, Ev.spawnWinSound]
          ++ flashTrace cur 3 120 120
          ++ rainbowTrace rand 400 24 3
          ++ [Ev.reseedStates, Ev.setRgb 0 c0, Ev.setRgb 1 c1, Ev.setRgb 2 c2],
        rainbowColors rand 24 3 ++ [((0 : ℤ), 0, 0)], [0, 1, 2])

/-- The shared mutable globals of src/main.py lines 32-34: the
published palette, the per-button index array, and whether the sync
event is set. -/
structure Sys : Type where
  palette : List Color
  states : List ℕ
  sync : Bool

/-- The atomic code sections, between suspension points, that touch
the shared globals once steady-state operation has begun:
* press: watch_button line 168, states[idx] = (states[idx]+1) % len(PALETTE);
* raiseSync: watch_button lines 179-180, set the event when all_equal;
* clearSig: sync_manager line 189, clear the event;
* swapPalette: the atomic palette replacement at the end of the
  rainbow call the orchestrator makes (rainbow(400, 24, 3), line 194);
* reseed: sync_manager line 197, states[:] = [0, 1, 2].
Any interleaving is allowed, which over-approximates the scheduler. -/
inductive Step : Sys → Sys → Prop where
  | press (s : Sys) (i v : ℕ) (h : s.states.get? i = some v) :
      Step s ⟨s.palette, s.states.set i ((v + 1) % s.palette.length), s.sync⟩
  | raiseSync (s : Sys) (h : all_equal s.states = true) :
      Step s ⟨s.palette, s.states, true⟩
  | clearSig (s : Sys) :
      Step s ⟨s.palette, s.states, false⟩
  | swapPalette (s : Sys) (rand : ℕ → ℝ) (p : List Color)
      (h : rainbowPalette 400 24 3 rand = some p) :
      Step s ⟨p, s.states, s.sync⟩
  | reseed (s : Sys) :
      Step s ⟨s.palette, [0, 1, 2], s.sync⟩

/-- States reachable through any number of atomic sections. -/
def Reachable : Sys → Sys → Prop :=
  Relation.ReflTransGen Step

/-- The shared state right after startup_sequence finishes (src/main.py
lines 202-206): its final rainbow(400, 24, 3) call has published the
first palette, states still holds its initial seed [0, 1, 2]
(line 33), the sync event is not set, and only then are the button
watchers and the orchestrator created. -/
noncomputable def init (rand : ℕ → ℝ) : Sys :=
  ⟨rainbowColors rand 24 3 ++ [((0 : ℤ), 0, 0)], [0, 1, 2], false⟩

/-- The invariant of the shared state: the palette has exactly the
four entries rainbow builds, the index array keeps its three slots,
and every stored index is a valid palette position. -/
def SharedInv (s : Sys) : Prop :=
  s.palette.length = 4 ∧ s.states.length = 3 ∧
    ∀ v ∈ s.states, v < s.palette.length

-- Helper lemmas about pyInt and the scaled sine intensity.

theorem pyInt_eq_floor {x : ℝ} (hx : 0 ≤ x) : pyInt x = ⌊x⌋ := by
  simp [pyInt, hx]

theorem scaled_nonneg (phi : ℝ) :
    0 ≤ (Real.sin phi * 0.5 + 0.5) * 65535 := by
  have h := Real.neg_one_le_sin phi
  nlinarith

theorem scaled_le (phi : ℝ) :
    (Real.sin phi * 0.5 + 0.5) * 65535 ≤ 65535 := by
  have h := Real.sin_le_one phi
  nlinarith

theorem channel_eq_floor (phi : ℝ) :
    channel phi = ⌊(Real.sin phi * 0.5 + 0.5) * 65535⌋ := by
  simp [channel, pyInt_eq_floor (scaled_nonneg phi)]

theorem channel_nonneg (phi : ℝ) : 0 ≤ channel phi := by
  rw [channel_eq_floor]
  exact Int.floor_nonneg.mpr (scaled_nonneg phi)

theorem channel_le (phi : ℝ) : channel phi ≤ 65535 := by
  rw [channel_eq_floor]
  have h := scaled_le phi
  have : ⌊(Real.sin phi * 0.5 + 0.5) * 65535⌋ ≤ ⌊(65535 : ℝ)⌋ :=
    Int.floor_le_floor h
  simpa using this

/-- C1: applied to the three button indices, all_equal is true iff
every pairwise comparison of the indices holds, hence false whenever
any single index differs from the others. -/
theorem all_equal_three_iff_pairwise (a b c : ℕ) :
    all_equal [a, b, c] = true ↔ (a = b ∧ b = c ∧ a = c) := by
  simp [all_equal]
  omega

/-- C2: the per-channel computation inside rainbow agrees with the
Color Oscillator contract: at phase theta and channel offset it
returns sin(theta + offset) * 0.5 + 0.5 scaled to 0-65535 and rounded
toward zero (which, the scaled intensity being nonnegative, is its
floor), and the result always lies in the channel range 0-65535.  It
is a pure function of the phase and offset, so deterministic and free
of side effects and error cases. -/
theorem rainbow_channel_osc_spec (theta offset : ℝ) :
    channel (theta + offset) = channelSpec theta offset ∧
    channelSpec theta offset =
      ⌊(Real.sin (theta + offset) * 0.5 + 0.5) * 65535⌋ ∧
    0 ≤ channelSpec theta offset ∧ channelSpec theta offset ≤ 65535 := by
  refine ⟨rfl, ?_, ?_, ?_⟩
  · exact channel_eq_floor (theta + offset)
  · exact channel_nonneg (theta + offset)
  · exact channel_le (theta + offset)

/-- C7: for every configured gamma exponent, gamma encoding maps 0 to
0 and 65535 to 65535 exactly (the source keeps the extremes exact). -/
theorem gamma_encode_endpoints (g : ℝ) :
    gammaEncode g 0 = 0 ∧ gammaEncode g 65535 = 65535 := by
  constructor <;> simp [gammaEncode]

-- Lemmas about the rainbow palette construction.

theorem innerLast_eq (phi0 : ℝ) (steps : ℕ) :
    innerLast phi0 steps =
      [frameColor phi0 steps steps 0, frameColor phi0 steps steps 1,
       frameColor phi0 steps steps 2] := by
  have haux : ∀ (l : List ℕ) (acc : List Color), (∀ i ∈ l, i ≠ steps) →
      l.foldl
        (fun last i =>
          if i = steps then
            [frameColor phi0 steps i 0, frameColor phi0 steps i 1,
             frameColor phi0 steps i 2]
          else last) acc = acc := by
    intro l
    induction l with
    | nil => intro acc _; rfl
    | cons x xs ih =>
      intro acc h
      simp only [List.foldl_cons]
      rw [if_neg (h x (List.mem_cons_self x xs))]
      exact ih acc (fun i hi => h i (List.mem_cons_of_mem x hi))
  unfold innerLast
  rw [List.range_succ, List.foldl_append,
      haux (List.range steps) _
        (fun i hi => Nat.ne_of_lt (List.mem_range.mp hi))]
  simp

theorem rainbowColors_length (rand : ℕ → ℝ) (steps loops : ℕ) :
    (rainbowColors rand steps loops).length = 3 := by
  cases loops with
  | zero => rfl
  | succ n =>
    unfold rainbowColors
    rw [List.range_succ, List.foldl_append]
    simp [innerLast_eq]

/-- C5: for every duration, frame count, loop count and random stream,
whenever the rainbow generator returns a palette, the palette's last
entry is the all-zero off color. -/
theorem rainbow_palette_last_off (durationMs steps loops : ℕ) (rand : ℕ → ℝ)
    (p : List Color) (h : rainbowPalette durationMs steps loops rand = some p) :
    p.getLast? = some ((0 : ℤ), 0, 0) := by
  unfold rainbowPalette at h
  by_cases hc : steps = 0 ∨ loops = 0
  · simp [hc] at h
  · rw [if_neg hc] at h
    simp only [Option.some.injEq] at h
    subst h
    exact List.getLast?_concat _

/-- Witness for C5: the palette of the concrete call
rainbow(400, 24, 3) under the zero random stream ends in the off
color. -/
theorem rainbow_palette_last_off_witness :
    (rainbowColors (fun _ => 0) 24 3 ++ [((0 : ℤ), 0, 0)]).getLast? =
      some ((0 : ℤ), 0, 0) :=
  rainbow_palette_last_off 400 24 3 (fun _ => 0) _ (by simp [rainbowPalette])

-- The press advance, iterated.

theorem watchButtonAdvance_iterate (pal : List Color) (k i : ℕ)
    (hi : i < pal.length) :
    (watchButtonAdvance pal)^[k] i = (i + k) % pal.length := by
  induction k generalizing i with
  | zero => simp [Nat.mod_eq_of_lt hi]
  | succ n ih =>
    rw [Function.iterate_succ_apply]
    have hlen : 0 < pal.length := Nat.lt_of_le_of_lt (Nat.zero_le i) hi
    have h2 : (i + 1) % pal.length < pal.length := Nat.mod_lt _ hlen
    have h1 : watchButtonAdvance pal i = (i + 1) % pal.length := rfl
    rw [h1, ih _ h2, Nat.mod_add_mod]
    congr 1
    omega

/-- C3: a confirmed press advances the button index by
(index + 1) mod L where L is the palette length at evaluation time,
and for a palette of length L, L consecutive presses return the index
to its starting value. -/
theorem watch_button_index_wrap (pal : List Color) (i : ℕ)
    (hi : i < pal.length) :
    (watchButtonAdvance pal)^[pal.length] i = i ∧
      ∀ j, watchButtonAdvance pal j = (j + 1) % pal.length := by
  refine ⟨?_, fun j => rfl⟩
  rw [watchButtonAdvance_iterate pal _ i hi, Nat.add_mod_right]
  exact Nat.mod_eq_of_lt hi

/-- Witness for C3: on the length-4 palette the generator produces,
four presses bring index 2 back to 2. -/
theorem watch_button_index_wrap_witness :
    (watchButtonAdvance
        [((0 : ℤ), 0, 0), (0, 0, 0), (0, 0, 0), (0, 0, 0)])^[4] 2 = 2 :=
  (watch_button_index_wrap
    [((0 : ℤ), 0, 0), (0, 0, 0), (0, 0, 0), (0, 0, 0)] 2 (by decide)).1

-- The shared-state invariant and its preservation.

theorem init_palette_length (rand : ℕ → ℝ) : (init rand).palette.length = 4 := by
  simp [init, rainbowColors_length]

theorem sharedInv_init (rand : ℕ → ℝ) : SharedInv (init rand) := by
  refine ⟨init_palette_length rand, rfl, ?_⟩
  intro v hv
  rw [init_palette_length rand]
  have : v ∈ [0, 1, 2] := hv
  simp at this
  omega

theorem sharedInv_step {s s' : Sys} (hs : SharedInv s) (h : Step s s') :
    SharedInv s' := by
  obtain ⟨hp, hl, hb⟩ := hs
  cases h with
  | press i v hv =>
    refine ⟨hp, by simpa using hl, ?_⟩
    intro x hx
    rcases List.mem_or_eq_of_mem_set hx with hx' | rfl
    · exact hb x hx'
    · have hlen : 0 < s.palette.length := by omega
      exact Nat.mod_lt _ hlen
  | raiseSync h => exact ⟨hp, hl, hb⟩
  | clearSig => exact ⟨hp, hl, hb⟩
  | swapPalette rand p hsw =>
    have hp4 : p.length = 4 := by
      unfold rainbowPalette at hsw
      rw [if_neg (by norm_num)] at hsw
      simp only [Option.some.injEq] at hsw
      subst hsw
      simp [rainbowColors_length]
    refine ⟨hp4, hl, ?_⟩
    intro x hx
    have := hb x hx
    show x < p.length
    omega
  | reseed =>
    refine ⟨hp, rfl, ?_⟩
    intro x hx
    have hx3 : x ∈ [0, 1, 2] := hx
    simp at hx3
    show x < s.palette.length
    omega

theorem sharedInv_reachable {s0 s : Sys} (h0 : SharedInv s0)
    (h : Reachable s0 s) : SharedInv s := by
  induction h with
  | refl => exact h0
  | tail _ hstep ih => exact sharedInv_step ih hstep

/-- C6: in every shared state reachable once startup has published the
first palette -- in particular whenever watch_button evaluates
(index + 1) % len(PALETTE) -- the palette has exactly the 4 entries
the generator builds, hence length at least 2, so the modulo is never
degenerate; this rests on the watchers being created only after
startup_sequence's final rainbow call. -/
theorem palette_length_safe (rand : ℕ → ℝ) (s : Sys)
    (h : Reachable (init rand) s) :
    s.palette.length = 4 ∧ 2 ≤ s.palette.length := by
  have hinv := sharedInv_reachable (sharedInv_init rand) h
  have h4 := hinv.1
  exact ⟨h4, by omega⟩

/-- Witness for C6: the claim instantiated at the freshly initialised
state itself. -/
theorem palette_length_safe_witness :
    (init (fun _ => 0)).palette.length = 4 ∧
      2 ≤ (init (fun _ => 0)).palette.length :=
  palette_length_safe (fun _ => 0) (init (fun _ => 0))
    Relation.ReflTransGen.refl

/-- C10: after startup, at every suspension point every stored button
index lies in [0, len(PALETTE)) with len(PALETTE) = 4; both index
writers -- the press advance of watch_button and the orchestrator's
wholesale reseed to [0, 1, 2] -- preserve the range, being the only
Step constructors that touch the index array. -/
theorem states_in_range_invariant (rand : ℕ → ℝ) (s : Sys)
    (h : Reachable (init rand) s) :
    s.states.length = 3 ∧ s.palette.length = 4 ∧
      ∀ v ∈ s.states, v < s.palette.length := by
  have hinv := sharedInv_reachable (sharedInv_init rand) h
  exact ⟨hinv.2.1, hinv.1, hinv.2.2⟩

/-- Witness for C10: the claim instantiated at a freshly initialised
state. -/
theorem states_in_range_invariant_witness :
    (init (fun _ => 1)).states.length = 3 ∧
      (init (fun _ => 1)).palette.length = 4 :=
  ⟨(states_in_range_invariant (fun _ => 1) (init (fun _ => 1))
      Relation.ReflTransGen.refl).1,
   (states_in_range_invariant (fun _ => 1) (init (fun _ => 1))
      Relation.ReflTransGen.refl).2.1⟩

-- Three sine waves 120 degrees apart sum to zero.

theorem sin_offsets_sum (phi : ℝ) :
    Real.sin phi + Real.sin (phi + 2 * Real.pi / 3)
      + Real.sin (phi + 4 * Real.pi / 3) = 0 := by
  have h2 : (2 * Real.pi / 3 : ℝ) = Real.pi - Real.pi / 3 := by ring
  have h4 : (4 * Real.pi / 3 : ℝ) = Real.pi + Real.pi / 3 := by ring
  rw [h2, h4, Real.sin_add phi (Real.pi - Real.pi / 3),
      Real.sin_add phi (Real.pi + Real.pi / 3),
      Real.sin_sub Real.pi (Real.pi / 3), Real.cos_sub Real.pi (Real.pi / 3),
      Real.sin_add Real.pi (Real.pi / 3), Real.cos_add Real.pi (Real.pi / 3),
      Real.sin_pi, Real.cos_pi, Real.sin_pi_div_three, Real.cos_pi_div_three]
  ring

/-- C9: for every phase angle, the three channel intensities rainbow
computes for one LED -- offsets 0, 2pi/3 and 4pi/3 off the same
phase -- sum to within 3 of 1.5 * 65535: the three raw scaled
intensities sum to exactly 1.5 * 65535 and each int() truncation
loses less than one unit. -/
theorem channel_sum_tolerance (phi : ℝ) :
    |((channel phi + channel (phi + 2 * Real.pi / 3)
        + channel (phi + 4 * Real.pi / 3) : ℤ) : ℝ) - 1.5 * 65535| ≤ 3 := by
  have e0 := channel_eq_floor phi
  have e1 := channel_eq_floor (phi + 2 * Real.pi / 3)
  have e2 := channel_eq_floor (phi + 4 * Real.pi / 3)
  have hsum : (Real.sin phi * 0.5 + 0.5) * 65535
      + (Real.sin (phi + 2 * Real.pi / 3) * 0.5 + 0.5) * 65535
      + (Real.sin (phi + 4 * Real.pi / 3) * 0.5 + 0.5) * 65535
      = 1.5 * 65535 := by
    have h := sin_offsets_sum phi
    nlinarith [h]
  have f0l := Int.floor_le ((Real.sin phi * 0.5 + 0.5) * 65535)
  have f1l := Int.floor_le ((Real.sin (phi + 2 * Real.pi / 3) * 0.5 + 0.5) * 65535)
  have f2l := Int.floor_le ((Real.sin (phi + 4 * Real.pi / 3) * 0.5 + 0.5) * 65535)
  have f0g := Int.sub_one_lt_floor ((Real.sin phi * 0.5 + 0.5) * 65535)
  have f1g := Int.sub_one_lt_floor ((Real.sin (phi + 2 * Real.pi / 3) * 0.5 + 0.5) * 65535)
  have f2g := Int.sub_one_lt_floor ((Real.sin (phi + 4 * Real.pi / 3) * 0.5 + 0.5) * 65535)
  rw [e0, e1, e2, abs_le]
  push_cast
  constructor <;> linarith

-- Gamma curve helper lemmas.

theorem gammaVal_nonneg (u : ℕ) :
    0 ≤ ((u : ℝ) / 65535) ^ GAMMA * 65535 + 0.5 := by
  have h1 : (0 : ℝ) ≤ ((u : ℝ) / 65535) ^ GAMMA :=
    Real.rpow_nonneg (by positivity) GAMMA
  nlinarith

theorem gammaInterior (u : ℕ) (h0 : u ≠ 0) (h65 : u ≠ 65535) :
    gamma_encode u = ⌊((u : ℝ) / 65535) ^ GAMMA * 65535 + 0.5⌋ := by
  unfold gamma_encode gammaEncode
  rw [if_neg (by tauto)]
  exact pyInt_eq_floor (gammaVal_nonneg u)

theorem gamma_encode_nonneg (u : ℕ) : 0 ≤ gamma_encode u := by
  by_cases h : u = 0 ∨ u = 65535
  · unfold gamma_encode gammaEncode
    rw [if_pos h]
    exact Int.ofNat_nonneg u
  · push_neg at h
    rw [gammaInterior u h.1 h.2]
    exact Int.floor_nonneg.mpr (gammaVal_nonneg u)

theorem gamma_encode_le_max (u : ℕ) (hu : u ≤ 65535) :
    gamma_encode u ≤ 65535 := by
  by_cases h : u = 0 ∨ u = 65535
  · unfold gamma_encode gammaEncode
    rw [if_pos h]
    exact_mod_cast hu
  · push_neg at h
    rw [gammaInterior u h.1 h.2]
    have hb : ((u : ℝ) / 65535) ≤ 1 := by
      rw [div_le_one (by norm_num)]
      exact_mod_cast hu
    have hr : ((u : ℝ) / 65535) ^ GAMMA ≤ 1 :=
      Real.rpow_le_one (by positivity) hb (by norm_num [GAMMA])
    have hv : ((u : ℝ) / 65535) ^ GAMMA * 65535 + 0.5 < 65536 := by nlinarith
    have hf : ⌊((u : ℝ) / 65535) ^ GAMMA * 65535 + 0.5⌋ < 65536 :=
      Int.floor_lt.mpr (by exact_mod_cast hv)
    omega

theorem gamma_encode_one : gamma_encode 1 = 0 := by
  rw [gammaInterior 1 (by norm_num) (by norm_num)]
  rw [Int.floor_eq_zero_iff]
  refine ⟨by exact_mod_cast gammaVal_nonneg 1, ?_⟩
  have h1 : ((1 : ℕ) : ℝ) / 65535 = (65535 : ℝ)⁻¹ := by norm_num
  have h2 : ((65535 : ℝ)⁻¹) ^ GAMMA = ((65535 : ℝ) ^ GAMMA)⁻¹ :=
    Real.inv_rpow (by norm_num) GAMMA
  have h3 : (65535 : ℝ) ^ (2 : ℝ) < (65535 : ℝ) ^ GAMMA :=
    Real.rpow_lt_rpow_of_exponent_lt (by norm_num) (by norm_num [GAMMA])
  have h4 : (65535 : ℝ) ^ (2 : ℝ) = (65535 : ℝ) ^ (2 : ℕ) := by
    rw [← Real.rpow_natCast]
    norm_num
  have h5 : (131070 : ℝ) < (65535 : ℝ) ^ GAMMA := by
    rw [h4] at h3
    nlinarith
  have h6 : (0 : ℝ) < (65535 : ℝ) ^ GAMMA :=
    Real.rpow_pos_of_pos (by norm_num) GAMMA
  have h7 : ((65535 : ℝ) ^ GAMMA)⁻¹ < (131070 : ℝ)⁻¹ := by
    exact inv_strictAnti₀ (by norm_num) h5
  rw [h1, h2]
  nlinarith [h6, h7]

/-- C8 counterexample: the gamma curve is not strictly increasing away
from the endpoints: at the concrete inputs a = 0 and b = 1 (with
0 <= a < b <= 65535) both encode to 0 under the configured exponent
2.2, because the quantisation int(x + 0.5) collapses the first few
hundred duty values to 0. -/
theorem gamma_encode_not_strict_cex :
    ¬ (∀ a b : ℕ, a < b → b ≤ 65535 → gamma_encode a < gamma_encode b) := by
  intro hmono
  have h := hmono 0 1 (by norm_num) (by norm_num)
  have h0 : gamma_encode 0 = 0 := by
    unfold gamma_encode gammaEncode
    norm_num
  rw [h0, gamma_encode_one] at h
  exact lt_irrefl 0 h

/-- C8 amended: the gamma curve is monotone (non-decreasing, rather
than strictly increasing) between the exactly-preserved endpoints: for
all duty values a <= b <= 65535, gamma_encode a <= gamma_encode b. -/
theorem gamma_encode_monotone (a b : ℕ) (hab : a ≤ b) (hb : b ≤ 65535) :
    gamma_encode a ≤ gamma_encode b := by
  rcases eq_or_ne a 0 with rfl | ha0
  · have h0 : gamma_encode 0 = 0 := by
      unfold gamma_encode gammaEncode
      norm_num
    rw [h0]
    exact gamma_encode_nonneg b
  rcases eq_or_ne b 65535 with rfl | hb65
  · have h65 : gamma_encode 65535 = 65535 := by
      unfold gamma_encode gammaEncode
      norm_num
    rw [h65]
    exact gamma_encode_le_max a hab
  have ha65 : a ≠ 65535 := by omega
  have hb0 : b ≠ 0 := by omega
  rw [gammaInterior a ha0 ha65, gammaInterior b hb0 hb65]
  apply Int.floor_le_floor
  have hmono : ((a : ℝ) / 65535) ^ GAMMA ≤ ((b : ℝ) / 65535) ^ GAMMA :=
    Real.rpow_le_rpow (by positivity) (by gcongr)
      (by norm_num [GAMMA])
  linarith

/-- Witness for the amended C8 at the concrete pair (0, 1). -/
theorem gamma_encode_monotone_witness : gamma_encode 0 ≤ gamma_encode 1 :=
  gamma_encode_monotone 0 1 (by norm_num) (by norm_num)

/-- C4: on every iteration of the sync_manager loop body, the wake on
the sync event is followed immediately by the clear of that event,
before any other work; and the iteration's trace ends with the reseed
of the three button indices to the distinct values 0, 1, 2 followed by
the push of each button's corresponding color from the freshly
generated palette, these final events coming after all flash events
and all palette-regeneration events, in that order. -/
theorem sync_manager_clear_first_reseed_last (rand : ℕ → ℝ)
    (pal pal2 : List Color) (sts sts2 : List ℕ) (tr : List Ev)
    (h : syncManagerIter rand pal sts = some (tr, pal2, sts2)) :
    tr.take 2 = [Ev.waitSync, Ev.clearSync] ∧
    sts2 = [0, 1, 2] ∧
    pal2 = rainbowColors rand 24 3 ++ [((0 : ℤ), 0, 0)] ∧
    ∃ cur c0 c1 c2,
      pal2.get? 0 = some c0 ∧ pal2.get? 1 = some c1 ∧
      pal2.get? 2 = some c2 ∧
      tr = [Ev.waitSync, Ev.clearSync, Ev.spawnWinSound]
            ++ flashTrace cur 3 120 120
            ++ rainbowTrace rand 400 24 3
            ++ [Ev.reseedStates, Ev.setRgb 0 c0, Ev.setRgb 1 c1,
                Ev.setRgb 2 c2] := by
  unfold syncManagerIter at h
  simp only [Option.bind_eq_some, Option.some.injEq] at h
  obtain ⟨s0, hs0, cur, hcur, c0, hc0, c1, hc1, c2, hc2, heq⟩ := h
  rw [Prod.ext_iff] at heq
  obtain ⟨htr, heq2⟩ := heq
  rw [Prod.ext_iff] at heq2
  obtain ⟨hpal, hsts⟩ := heq2
  subst htr
  subst hpal
  subst hsts
  exact ⟨rfl, rfl, rfl, cur, c0, c1, c2, hc0, hc1, hc2, rfl⟩

/-- Witness for C4: a concrete iteration from a length-4 palette with
all three indices at 2 under the zero random stream: the trace begins
with the wake and the clear, and the index array ends reseeded. -/
theorem sync_manager_clear_first_reseed_last_witness :
    (syncManagerIter (fun _ => 0)
        [((1 : ℤ), 2, 3), (4, 5, 6), (7, 8, 9), (0, 0, 0)] [2, 2, 2]).map
        (fun t => (t.1.take 2, t.2.2)) =
      some ([Ev.waitSync, Ev.clearSync], [0, 1, 2]) := by
  obtain ⟨tr, pal2, sts2, h⟩ :
      ∃ tr pal2 sts2,
        syncManagerIter (fun _ => 0)
          [((1 : ℤ), 2, 3), (4, 5, 6), (7, 8, 9), (0, 0, 0)] [2, 2, 2] =
          some (tr, pal2, sts2) := ⟨_, _, _, rfl⟩
  obtain ⟨h1, h2, -⟩ := sync_manager_clear_first_reseed_last _ _ _ _ _ _ h
  rw [h]
  simp [h1, h2]
